import Mathlib

/-!
Verification of the `ReaderThread` core of `src/Pyserial/pyserial_example.py`.

The development shallowly embeds the reader-loop state machine:

* `PySerial.readLoop` embeds the `while self.alive and self.serial.is_open`
  loop of `ReaderThread.run` (lines 73-89).  The environment visible to one
  loop iteration — whether a concurrent `stop()` flipped `alive` before the
  condition check, what `serial.is_open` reports, and what `serial.read`
  returns or raises — is one `PySerial.Step`; a run's environment is a finite
  list of steps.  An exhausted step list means the loop has not terminated yet.
* `PySerial.runFn` embeds the whole body of `ReaderThread.run` (lines 59-92):
  handler creation, `connection_made` with its startup-failure path, the read
  loop, and the final `alive = False` / `connection_lost` / `protocol = None`
  epilogue.  A handler's `connection_lost` may itself raise (the base
  `Protocol.connection_lost` of lines 20-26, `PySerial.Protocol.connection_lost`,
  re-raises any present error); a raise at line 68 escapes before the event is
  set at line 69, and a raise at line 91 escapes before the handler reference
  is dropped at line 92.
* `PySerial.ReaderThread.stop` / `close` / `connect` embed the corresponding
  methods over the thread-visible state `PySerial.RState`; `threading.Thread.join`
  raising `RuntimeError` on a never-started thread is part of the embedding.
* `PySerial.wStep` / `cStep` embed `write` and `close` as critical sections of
  the single `self._lock`, with an interleaving semantics over schedules.
-/

namespace PySerial

/-- A Python exception value.  `isSerial` records whether it is an instance of
`serial.SerialException` (the only class caught around `serial.read`);
`code` distinguishes concrete exception objects. -/
structure Exc where
  isSerial : Bool
  code : Nat
deriving DecidableEq

/-- Result of one `self.serial.read(self.serial.in_waiting or 1)` call:
either it returns a (possibly empty) byte string, or it raises. -/
inductive ReadResult
  | ok (data : List Nat)
  | err (e : Exc)
deriving DecidableEq

/-- The environment of one iteration of the read loop: whether a concurrent
`stop()` set `alive = False` before this iteration's condition check, what
`serial.is_open` reports, and what `serial.read` does if reached. -/
structure Step where
  stopBefore : Bool
  isOpen : Bool
  read : ReadResult
deriving DecidableEq

/-- A protocol handler, as the run loop observes it: `connection_made` either
returns or raises `cmExc`; `data_received data` either returns or raises
`drExc data`; `connection_lost exc` either returns (`clExc exc = none`) or
raises `e'` (`clExc exc = some e'`). -/
structure Handler where
  cmExc : Option Exc
  drExc : List Nat → Option Exc
  clExc : Option Exc → Option Exc

/-- The raise behaviour of the base `Protocol.connection_lost`
(lines 20-26): `if isinstance(exc, Exception): raise exc` — the call
re-raises exactly the exception it was passed, and returns normally when
passed `None`. -/
def Protocol.connection_lost (exc : Option Exc) : Option Exc := exc

/-- One observable handler callback, in the order the loop makes them.
`connMade ok` records the `connection_made` invocation and whether it
returned without raising. -/
inductive HEvent
  | connMade (ok : Bool)
  | dataRecv (data : List Nat)
  | connLost (e : Option Exc)
deriving DecidableEq

/-- How the `while` loop of `ReaderThread.run` was left. -/
inductive LoopExit
  | condFalse
  | brokeSerial (e : Exc)
  | brokeHandler (e : Exc)
  | escaped (e : Exc)
  | exhausted
deriving DecidableEq

/-- Result of the `while` loop: the chunks passed to `data_received` in
order, how the loop exited, and the value of `alive` at that point. -/
structure LoopResult where
  chunks : List (List Nat)
  exit : LoopExit
  aliveAtExit : Bool
deriving DecidableEq

/-- The `while self.alive and self.serial.is_open` loop (lines 73-89 of
`pyserial_example.py`): read; a `serial.SerialException` is recorded and
breaks; any other exception from `read` escapes uncaught; non-empty data is
passed to `data_received`, whose exception is recorded and breaks; empty data
just continues the loop. -/
def readLoop (h : Handler) : Bool → List Step → LoopResult
  | alive, [] => ⟨[], .exhausted, alive⟩
  | alive, s :: rest =>
    let alive' := if s.stopBefore then false else alive
    if alive' && s.isOpen then
      match s.read with
      | .err e =>
        if e.isSerial then ⟨[], .brokeSerial e, alive'⟩
        else ⟨[], .escaped e, alive'⟩
      | .ok data =>
        if data.isEmpty then readLoop h alive' rest
        else
          match h.drExc data with
          | some e => ⟨[data], .brokeHandler e, alive'⟩
          | none =>
            let r := readLoop h alive' rest
            ⟨data :: r.chunks, r.exit, r.aliveAtExit⟩
    else ⟨[], .condFalse, alive'⟩

/-- How a whole execution of `ReaderThread.run` ended: returned normally,
aborted by a non-serial exception escaping from the `read` call in the loop,
aborted by an exception raised out of a `connection_lost` call (line 68 or
line 91), or still inside the loop (the finite environment did not determine
termination). -/
inductive RunOutcome
  | completed
  | escapedWith (e : Exc)
  | connLostRaised (e : Exc)
  | stillRunning
deriving DecidableEq

/-- Observable result of one execution of `ReaderThread.run`: the handler
callback trace, whether `self._connection_made.set()` ran, the final `alive`
flag, whether `self.protocol = None` ran, how many times the protocol
factory was called, how the loop exited (none on the startup-failure path),
and the overall outcome. -/
structure RunResult where
  events : List HEvent
  connMadeSet : Bool
  aliveFinal : Bool
  protocolReleased : Bool
  factoryCalls : Nat
  loopExit : Option LoopExit
  outcome : RunOutcome
deriving DecidableEq

/-- The error recorded in `run`'s local `error` variable by the loop exit
(`None` on a normal condition-false exit; an escaping exception is never
recorded). -/
def errorOfExit : LoopExit → Option Exc
  | .condFalse => none
  | .brokeSerial e => some e
  | .brokeHandler e => some e
  | .escaped _ => none
  | .exhausted => none

/-- The body of `ReaderThread.run` (lines 59-92): create the handler, call
`connection_made`.  On a raise there (startup failure): `alive = False`
(line 67), then `connection_lost(e)` (line 68) — if that call itself raises
(as the base `Protocol.connection_lost` does), the exception escapes before
`self._connection_made.set()` at line 69, so the event stays unset; otherwise
the event is set and `run` returns, in both cases keeping the handler
reference.  On success: set the event, run the read loop with initial flag
`alive0`; a non-serial exception from `read` escapes before any epilogue;
otherwise `alive = False` (line 90), `connection_lost(error)` (line 91) —
a raise there escapes before `self.protocol = None` at line 92, so the
handler reference is dropped only when `connection_lost` returns. -/
def runFn (h : Handler) (alive0 : Bool) (steps : List Step) : RunResult :=
  match h.cmExc with
  | some e =>
    match h.clExc (some e) with
    | some e' =>
      { events := [.connMade false, .connLost (some e)]
        connMadeSet := false
        aliveFinal := false
        protocolReleased := false
        factoryCalls := 1
        loopExit := none
        outcome := .connLostRaised e' }
    | none =>
      { events := [.connMade false, .connLost (some e)]
        connMadeSet := true
        aliveFinal := false
        protocolReleased := false
        factoryCalls := 1
        loopExit := none
        outcome := .completed }
  | none =>
    let r := readLoop h alive0 steps
    match r.exit with
    | .escaped e =>
      { events := .connMade true :: r.chunks.map HEvent.dataRecv
        connMadeSet := true
        aliveFinal := r.aliveAtExit
        protocolReleased := false
        factoryCalls := 1
        loopExit := some (.escaped e)
        outcome := .escapedWith e }
    | .exhausted =>
      { events := .connMade true :: r.chunks.map HEvent.dataRecv
        connMadeSet := true
        aliveFinal := r.aliveAtExit
        protocolReleased := false
        factoryCalls := 1
        loopExit := some .exhausted
        outcome := .stillRunning }
    | ex =>
      match h.clExc (errorOfExit ex) with
      | some e' =>
        { events := .connMade true :: (r.chunks.map HEvent.dataRecv ++
            [.connLost (errorOfExit ex)])
          connMadeSet := true
          aliveFinal := false
          protocolReleased := false
          factoryCalls := 1
          loopExit := some ex
          outcome := .connLostRaised e' }
      | none =>
        { events := .connMade true :: (r.chunks.map HEvent.dataRecv ++
            [.connLost (errorOfExit ex)])
          connMadeSet := true
          aliveFinal := false
          protocolReleased := true
          factoryCalls := 1
          loopExit := some ex
          outcome := .completed }

/-- `true` exactly on `connection_lost` events. -/
def isConnLost : HEvent → Bool
  | .connLost _ => true
  | _ => false

/-- Number of `connection_lost` invocations in a callback trace. -/
def countConnLost (evs : List HEvent) : Nat :=
  (evs.filter isConnLost).length

/-- `true` unless the event is a `data_received` call with an empty byte
sequence. -/
def nonEmptyData : HEvent → Bool
  | .dataRecv d => !d.isEmpty
  | _ => true

/-- `orderedAux cm cl evs = true` iff in `evs` every `data_received` happens
after `connection_made` returned successfully (`cm` tracks that it already
has) and before any `connection_lost` (`cl` tracks that one already happened). -/
def orderedAux : Bool → Bool → List HEvent → Bool
  | _, _, [] => true
  | cm, cl, .connMade ok :: rest => orderedAux (cm || ok) cl rest
  | cm, cl, .dataRecv _ :: rest => cm && !cl && orderedAux cm cl rest
  | cm, _, .connLost _ :: rest => orderedAux cm true rest

/-- Thread- and stream-visible state of a `ReaderThread` object together
with its serial port: the `alive` flag, whether `Thread.start()` has been
called, whether the port is open, and whether `self._connection_made` has
been set. -/
structure RState where
  alive : Bool
  started : Bool
  sOpen : Bool
  eventSet : Bool
deriving DecidableEq

/-- State right after `ReaderThread.__init__` with an open port:
`alive = True`, not started, event not set. -/
def initState : RState := ⟨true, false, true, false⟩

/-- `ReaderThread.stop` (lines 52-57): set `alive = False`, cooperatively
cancel a pending read if supported, then `self.join(2)`.  The second
component records whether an exception was raised: `threading.Thread.join`
raises `RuntimeError` when the thread was never started. -/
def ReaderThread.stop (s : RState) : RState × Bool :=
  ({ s with alive := false }, !s.started)

/-- `ReaderThread.close` (lines 101-107): under `self._lock`, call `stop()`
then `self.serial.close()`.  If `stop()` raises, the exception propagates and
the port is not closed.  The second component records whether an exception
was raised. -/
def ReaderThread.close (s : RState) : RState × Bool :=
  let p := ReaderThread.stop s
  if p.2 then p else ({ p.1 with sOpen := false }, false)

/-- What a call to `ReaderThread.connect` does. -/
inductive ConnectResult
  | ok
  | connectionLostError
  | alreadyStoppedError
  | blocksForever
deriving DecidableEq

/-- `ReaderThread.connect` (lines 109-120) as a function of the `alive` flag
at the call, whether the one-shot `_connection_made` event ever fires
(`wait()` returns), and the `alive` flag observed after the wait:
if `alive` is false at the call, raise `RuntimeError('already stopped')`;
otherwise wait — forever if the event never fires — and on waking either
raise `RuntimeError('connection_lost already called')` if `alive` went
false, or return the `(self, self.protocol)` pair. -/
def ReaderThread.connect (aliveAtCall fires aliveAtWake : Bool) : ConnectResult :=
  if aliveAtCall then
    if fires then
      if aliveAtWake then .ok else .connectionLostError
    else .blocksForever
  else .alreadyStoppedError

/-- One public operation on a `ReaderThread`, for reasoning about the
evolution of the `alive` flag across arbitrary call sequences.  `runOp`
stands for one full execution of the background `run` body over a given
handler and loop environment. -/
inductive Op
  | startOp
  | stopOp
  | closeOp
  | connectOp
  | writeOp
  | runOp (h : Handler) (steps : List Step)

/-- Effect of one operation on the thread-visible state.  `connect` and
`write` read but never write `alive`; `run` leaves `alive` as its body does
(`runFn` starts from the current flag, since a concurrent `stop` may already
have cleared it). -/
def applyOp (s : RState) : Op → RState
  | .startOp => { s with started := true }
  | .stopOp => (ReaderThread.stop s).1
  | .closeOp => (ReaderThread.close s).1
  | .connectOp => s
  | .writeOp => s
  | .runOp h steps =>
    { s with alive := (runFn h s.alive steps).aliveFinal
             eventSet := s.eventSet || (runFn h s.alive steps).connMadeSet }

/-- The sequence of states visited while executing a list of operations,
including the initial one. -/
def execTrace (s : RState) : List Op → List RState
  | [] => [s]
  | op :: ops => s :: execTrace (applyOp s op) ops

/-- The `alive` flags along a state trace. -/
def aliveList (ts : List RState) : List Bool :=
  ts.map RState.alive

/-- Number of `true → false` transitions between adjacent entries. -/
def flips : List Bool → Nat
  | [] => 0
  | [_] => 0
  | a :: b :: t => (if a && !b then 1 else 0) + flips (b :: t)

/-- `true` iff no adjacent pair goes `false → true`. -/
def noRevive : List Bool → Bool
  | [] => true
  | [_] => true
  | a :: b :: t => (a || !b) && noRevive (b :: t)

/-- Interleaving state for one `write(data)` racing one `close()` on the same
`ReaderThread`.  Program counters: writer `wpc ∈ {0,1,2}` (0 = about to
acquire `self._lock`, 1 = inside the `with` block about to call
`self.serial.write(data)`, 2 = done, lock released); closer
`cpc ∈ {0,1,2,3}` (0 = about to acquire the lock, 1 = holding it, about to
call `stop()`, 2 = about to call `self.serial.close()`, 3 = done, lock
released).  `wAt` is a ghost variable recording the closer's program counter
at the instant the writer's stream operation ran. -/
structure WCState where
  wpc : Nat
  cpc : Nat
  lockW : Bool
  lockC : Bool
  sOpen : Bool
  alive : Bool
  buf : List Nat
  wErr : Bool
  wAt : Option Nat
deriving DecidableEq

/-- Both threads at their entry points, port open, nothing written. -/
def wcInit : WCState := ⟨0, 0, false, false, true, true, [], false, none⟩

/-- One step of the writer executing `ReaderThread.write` (lines 94-99):
acquire `self._lock` when free, then perform the single stream-visible
operation `self.serial.write(data)` — appending to the port's buffer when
the port is open, raising when it is closed — and release the lock.
A thread that cannot move stutters. -/
def wStep (data : List Nat) (s : WCState) : WCState :=
  if s.wpc = 0 then
    if !s.lockW && !s.lockC then { s with wpc := 1, lockW := true } else s
  else if s.wpc = 1 then
    if s.sOpen then
      { s with buf := s.buf ++ data, wpc := 2, lockW := false, wAt := some s.cpc }
    else
      { s with wErr := true, wpc := 2, lockW := false, wAt := some s.cpc }
  else s

/-- One step of the closer executing `ReaderThread.close` (lines 101-107):
acquire the lock when free, call `stop()` (clearing `alive`), call
`self.serial.close()`, release the lock.  A thread that cannot move
stutters. -/
def cStep (s : WCState) : WCState :=
  if s.cpc = 0 then
    if !s.lockW && !s.lockC then { s with cpc := 1, lockC := true } else s
  else if s.cpc = 1 then { s with alive := false, cpc := 2 }
  else if s.cpc = 2 then { s with sOpen := false, cpc := 3, lockC := false }
  else s

/-- Run a schedule: `true` gives the writer the next step, `false` the
closer. -/
def wcRun (data : List Nat) (s : WCState) : List Bool → WCState
  | [] => s
  | t :: ts => wcRun data (if t then wStep data s else cStep s) ts

/-- Execute a schedule from the initial state. -/
def wcExec (data : List Nat) (sched : List Bool) : WCState :=
  wcRun data wcInit sched

/-- Inductive invariant of the write/close interleaving: lock ownership
matches the program counters, the two critical sections exclude each other,
the port closes exactly when the closer finishes, and the writer's outcome
is total-success-before-close or clean-failure-after-close. -/
def WCInv (data : List Nat) (s : WCState) : Prop :=
  ¬(s.lockW = true ∧ s.lockC = true) ∧
  (s.lockW = true ↔ s.wpc = 1) ∧
  (s.lockC = true ↔ (s.cpc = 1 ∨ s.cpc = 2)) ∧
  s.wpc ≤ 2 ∧ s.cpc ≤ 3 ∧
  (s.sOpen = true ↔ s.cpc ≤ 2) ∧
  (s.wpc ≤ 1 → s.buf = [] ∧ s.wErr = false ∧ s.wAt = none) ∧
  (s.wpc = 2 →
    (s.wErr = false ∧ s.buf = data ∧ s.wAt = some 0) ∨
    (s.wErr = true ∧ s.buf = [] ∧ s.wAt = some 3))

/-- With `alive` already false the loop body never runs: the condition check
fails immediately (or the environment is exhausted) and `alive` stays false. -/
lemma readLoop_false (h : Handler) (steps : List Step) :
    (readLoop h false steps).aliveAtExit = false := by
  cases steps with
  | nil => simp [readLoop]
  | cons s rest => simp [readLoop]

/-- The loop never resurrects the `alive` flag: if it is true at exit it was
true at entry. -/
lemma readLoop_alive_mono (h : Handler) (steps : List Step) (a : Bool)
    (hx : (readLoop h a steps).aliveAtExit = true) : a = true := by
  cases a with
  | false => rw [readLoop_false] at hx; exact absurd hx (by simp)
  | true => rfl

/-- Unfolding: a concurrent `stop()` observed before the condition check
ends the loop at once with `alive` false. -/
lemma readLoop_cons_stop (h : Handler) (a : Bool) (s : Step) (rest : List Step)
    (hs : s.stopBefore = true) :
    readLoop h a (s :: rest) = ⟨[], .condFalse, false⟩ := by
  simp [readLoop, hs]

/-- Unfolding: with `alive` already false the condition check fails. -/
lemma readLoop_cons_dead (h : Handler) (s : Step) (rest : List Step) :
    readLoop h false (s :: rest) = ⟨[], .condFalse, false⟩ := by
  simp [readLoop]

/-- Unfolding: a closed port fails the condition check. -/
lemma readLoop_cons_closed (h : Handler) (a : Bool) (s : Step) (rest : List Step)
    (hs : s.stopBefore = false) (ho : s.isOpen = false) :
    readLoop h a (s :: rest) = ⟨[], .condFalse, a⟩ := by
  simp [readLoop, hs, ho]

/-- Unfolding: a raising `read` either records a `SerialException` and breaks,
or escapes. -/
lemma readLoop_cons_err (h : Handler) (e : Exc) (rest : List Step) :
    readLoop h true (⟨false, true, .err e⟩ :: rest) =
      if e.isSerial then ⟨[], .brokeSerial e, true⟩ else ⟨[], .escaped e, true⟩ := by
  simp only [readLoop]
  split <;> simp_all

/-- Unfolding: an empty read continues the loop without touching the handler.
This is the "no bytes yet" polling case. -/
lemma readLoop_cons_empty (h : Handler) (rest : List Step) :
    readLoop h true (⟨false, true, .ok []⟩ :: rest) = readLoop h true rest := by
  simp [readLoop]

/-- Unfolding: non-empty data whose dispatch raises records the error and
breaks, after the one `data_received` call. -/
lemma readLoop_cons_data_err (h : Handler) (data : List Nat) (e : Exc)
    (rest : List Step) (hd : data ≠ []) (hdr : h.drExc data = some e) :
    readLoop h true (⟨false, true, .ok data⟩ :: rest) =
      ⟨[data], .brokeHandler e, true⟩ := by
  simp [readLoop, hd, hdr]

/-- Unfolding: non-empty data dispatched successfully prepends its chunk and
continues. -/
lemma readLoop_cons_data_ok (h : Handler) (data : List Nat) (rest : List Step)
    (hd : data ≠ []) (hdr : h.drExc data = none) :
    readLoop h true (⟨false, true, .ok data⟩ :: rest) =
      ⟨data :: (readLoop h true rest).chunks, (readLoop h true rest).exit,
        (readLoop h true rest).aliveAtExit⟩ := by
  simp [readLoop, hd, hdr]

/-- Structural facts about one loop execution: an escaping exception leaves
`alive` true and is never a `SerialException`; a recorded read error is a
`SerialException`; every chunk handed to `data_received` is non-empty. -/
lemma readLoop_facts (h : Handler) (steps : List Step) (a : Bool) :
    (∀ e, (readLoop h a steps).exit = .escaped e →
      (readLoop h a steps).aliveAtExit = true ∧ e.isSerial = false) ∧
    (∀ e, (readLoop h a steps).exit = .brokeSerial e → e.isSerial = true) ∧
    (∀ c ∈ (readLoop h a steps).chunks, c ≠ []) := by
  induction steps generalizing a with
  | nil => simp [readLoop]
  | cons s rest ih =>
    cases a with
    | false => rw [readLoop_cons_dead]; simp
    | true =>
      rcases s with ⟨sb, op, rd⟩
      cases sb with
      | true => rw [readLoop_cons_stop h true _ rest rfl]; simp
      | false =>
        cases op with
        | false => rw [readLoop_cons_closed h true _ rest rfl rfl]; simp
        | true =>
          cases rd with
          | err e =>
            rw [readLoop_cons_err]
            by_cases hs : e.isSerial
            · simp [hs]
            · simp [hs]
          | ok data =>
            by_cases hd : data = []
            · subst hd
              rw [readLoop_cons_empty]
              exact ih true
            · cases hdr : h.drExc data with
              | some e =>
                rw [readLoop_cons_data_err h data e rest hd hdr]
                simp [hd]
              | none =>
                rw [readLoop_cons_data_ok h data rest hd hdr]
                refine ⟨(ih true).1, (ih true).2.1, ?_⟩
                intro c hc
                rcases List.mem_cons.mp hc with hc | hc
                · subst hc; exact hd
                · exact (ih true).2.2 c hc


/-- Unfolding: a raising `connection_made` whose `connection_lost(e)` call
returns normally takes the startup-failure path of `run`: `alive = False`,
`connection_lost(e)`, event set, return — before any read, and without
dropping the handler reference. -/
lemma runFn_cmFail_clOk (h : Handler) (a : Bool) (steps : List Step) (e : Exc)
    (hc : h.cmExc = some e) (hcl : h.clExc (some e) = none) :
    runFn h a steps =
      ⟨[.connMade false, .connLost (some e)], true, false, false, 1, none, .completed⟩ := by
  simp [runFn, hc, hcl]

/-- Unfolding: a raising `connection_made` whose `connection_lost(e)` call
itself raises (as the base `Protocol.connection_lost` does) aborts `run` at
line 68: the event is never set, the handler reference is kept, and the
exception escapes the thread body. -/
lemma runFn_cmFail_clRaise (h : Handler) (a : Bool) (steps : List Step) (e e2 : Exc)
    (hc : h.cmExc = some e) (hcl : h.clExc (some e) = some e2) :
    runFn h a steps =
      ⟨[.connMade false, .connLost (some e)], false, false, false, 1, none,
        .connLostRaised e2⟩ := by
  simp [runFn, hc, hcl]

/-- On the startup-failure path, whether or not `connection_lost` raises:
the callback trace, the cleared `alive` flag, the kept handler reference,
the absent loop exit and the single factory call are the same. -/
lemma runFn_cmFail_events (h : Handler) (a : Bool) (steps : List Step) (e : Exc)
    (hc : h.cmExc = some e) :
    (runFn h a steps).events = [.connMade false, .connLost (some e)] ∧
    (runFn h a steps).aliveFinal = false ∧
    (runFn h a steps).protocolReleased = false ∧
    (runFn h a steps).loopExit = none ∧
    (runFn h a steps).factoryCalls = 1 := by
  cases hcl : h.clExc (some e) with
  | none =>
    rw [runFn_cmFail_clOk h a steps e hc hcl]
    exact ⟨rfl, rfl, rfl, rfl, rfl⟩
  | some e2 =>
    rw [runFn_cmFail_clRaise h a steps e e2 hc hcl]
    exact ⟨rfl, rfl, rfl, rfl, rfl⟩

/-- Unfolding: a non-`SerialException` from `read` aborts `run` before its
epilogue. -/
lemma runFn_escaped (h : Handler) (a : Bool) (steps : List Step) (e : Exc)
    (hc : h.cmExc = none) (hx : (readLoop h a steps).exit = .escaped e) :
    runFn h a steps =
      ⟨.connMade true :: (readLoop h a steps).chunks.map HEvent.dataRecv, true,
        (readLoop h a steps).aliveAtExit, false, 1, some (.escaped e), .escapedWith e⟩ := by
  simp [runFn, hc, hx]

/-- Unfolding: an exhausted environment leaves `run` still inside the loop. -/
lemma runFn_exhausted (h : Handler) (a : Bool) (steps : List Step)
    (hc : h.cmExc = none) (hx : (readLoop h a steps).exit = .exhausted) :
    runFn h a steps =
      ⟨.connMade true :: (readLoop h a steps).chunks.map HEvent.dataRecv, true,
        (readLoop h a steps).aliveAtExit, false, 1, some .exhausted, .stillRunning⟩ := by
  simp [runFn, hc, hx]

/-- Unfolding: when the loop exits by condition, recorded read error, or
dispatch error and the `connection_lost(error)` call returns normally,
`run` performs its full epilogue: `alive = False`, `connection_lost(error)`,
handler reference dropped. -/
lemma runFn_loopDone_clOk (h : Handler) (a : Bool) (steps : List Step)
    (hc : h.cmExc = none)
    (hx : ∀ e, (readLoop h a steps).exit ≠ .escaped e)
    (hx2 : (readLoop h a steps).exit ≠ .exhausted)
    (hcl : h.clExc (errorOfExit (readLoop h a steps).exit) = none) :
    runFn h a steps =
      ⟨.connMade true :: ((readLoop h a steps).chunks.map HEvent.dataRecv ++
          [.connLost (errorOfExit (readLoop h a steps).exit)]), true,
        false, true, 1, some (readLoop h a steps).exit, .completed⟩ := by
  rcases hexit : (readLoop h a steps).exit with _ | e | e | e | _
  · rw [hexit] at hcl; simp [runFn, hc, hexit, hcl]
  · rw [hexit] at hcl; simp [runFn, hc, hexit, hcl]
  · rw [hexit] at hcl; simp [runFn, hc, hexit, hcl]
  · exact absurd hexit (hx e)
  · exact absurd hexit hx2

/-- Unfolding: when the loop exits by condition, recorded read error, or
dispatch error but the `connection_lost(error)` call itself raises, `run`
aborts at line 91: `alive` is already false, yet `self.protocol = None` is
skipped and the exception escapes the thread body. -/
lemma runFn_loopDone_clRaise (h : Handler) (a : Bool) (steps : List Step) (e2 : Exc)
    (hc : h.cmExc = none)
    (hx : ∀ e, (readLoop h a steps).exit ≠ .escaped e)
    (hx2 : (readLoop h a steps).exit ≠ .exhausted)
    (hcl : h.clExc (errorOfExit (readLoop h a steps).exit) = some e2) :
    runFn h a steps =
      ⟨.connMade true :: ((readLoop h a steps).chunks.map HEvent.dataRecv ++
          [.connLost (errorOfExit (readLoop h a steps).exit)]), true,
        false, false, 1, some (readLoop h a steps).exit, .connLostRaised e2⟩ := by
  rcases hexit : (readLoop h a steps).exit with _ | e | e | e | _
  · rw [hexit] at hcl; simp [runFn, hc, hexit, hcl]
  · rw [hexit] at hcl; simp [runFn, hc, hexit, hcl]
  · rw [hexit] at hcl; simp [runFn, hc, hexit, hcl]
  · exact absurd hexit (hx e)
  · exact absurd hexit hx2

/-- On the steady-state epilogue, whether or not `connection_lost` raises:
the callback trace ends with the one `connection_lost(error)` invocation,
`alive` is cleared, the event was set, the loop exit is recorded and the
factory ran once. -/
lemma runFn_loopDone_events (h : Handler) (a : Bool) (steps : List Step)
    (hc : h.cmExc = none)
    (hx : ∀ e, (readLoop h a steps).exit ≠ .escaped e)
    (hx2 : (readLoop h a steps).exit ≠ .exhausted) :
    (runFn h a steps).events =
      .connMade true :: ((readLoop h a steps).chunks.map HEvent.dataRecv ++
        [.connLost (errorOfExit (readLoop h a steps).exit)]) ∧
    (runFn h a steps).connMadeSet = true ∧
    (runFn h a steps).aliveFinal = false ∧
    (runFn h a steps).loopExit = some (readLoop h a steps).exit ∧
    (runFn h a steps).factoryCalls = 1 := by
  cases hcl : h.clExc (errorOfExit (readLoop h a steps).exit) with
  | none =>
    rw [runFn_loopDone_clOk h a steps hc hx hx2 hcl]
    exact ⟨rfl, rfl, rfl, rfl, rfl⟩
  | some e2 =>
    rw [runFn_loopDone_clRaise h a steps e2 hc hx hx2 hcl]
    exact ⟨rfl, rfl, rfl, rfl, rfl⟩

/-- `run` never resurrects the `alive` flag. -/
lemma runFn_alive_mono (h : Handler) (a : Bool) (steps : List Step)
    (hx : (runFn h a steps).aliveFinal = true) : a = true := by
  cases hc : h.cmExc with
  | some e =>
    rw [(runFn_cmFail_events h a steps e hc).2.1] at hx
    exact absurd hx (by simp)
  | none =>
    rcases hexit : (readLoop h a steps).exit with _ | e | e | e | _
    · rw [(runFn_loopDone_events h a steps hc (by simp [hexit]) (by simp [hexit])).2.2.1] at hx
      exact absurd hx (by simp)
    · rw [(runFn_loopDone_events h a steps hc (by simp [hexit]) (by simp [hexit])).2.2.1] at hx
      exact absurd hx (by simp)
    · rw [(runFn_loopDone_events h a steps hc (by simp [hexit]) (by simp [hexit])).2.2.1] at hx
      exact absurd hx (by simp)
    · rw [runFn_escaped h a steps e hc hexit] at hx
      exact readLoop_alive_mono h steps a hx
    · rw [runFn_exhausted h a steps hc hexit] at hx
      exact readLoop_alive_mono h steps a hx

/-- A completed `run` — one that returned normally, so in particular its
`connection_lost` call returned — has cleared `alive` and set the one-shot
event. -/
lemma runFn_completed_dead (h : Handler) (a : Bool) (steps : List Step)
    (hx : (runFn h a steps).outcome = .completed) :
    (runFn h a steps).aliveFinal = false ∧ (runFn h a steps).connMadeSet = true := by
  cases hc : h.cmExc with
  | some e =>
    cases hcl : h.clExc (some e) with
    | none => rw [runFn_cmFail_clOk h a steps e hc hcl]; exact ⟨rfl, rfl⟩
    | some e2 =>
      rw [runFn_cmFail_clRaise h a steps e e2 hc hcl] at hx
      exact absurd hx (by simp)
  | none =>
    rcases hexit : (readLoop h a steps).exit with _ | e | e | e | _
    · cases hcl : h.clExc (errorOfExit (readLoop h a steps).exit) with
      | none =>
        rw [runFn_loopDone_clOk h a steps hc (by simp [hexit]) (by simp [hexit]) hcl]
        exact ⟨rfl, rfl⟩
      | some e2 =>
        rw [runFn_loopDone_clRaise h a steps e2 hc (by simp [hexit]) (by simp [hexit]) hcl] at hx
        exact absurd hx (by simp)
    · cases hcl : h.clExc (errorOfExit (readLoop h a steps).exit) with
      | none =>
        rw [runFn_loopDone_clOk h a steps hc (by simp [hexit]) (by simp [hexit]) hcl]
        exact ⟨rfl, rfl⟩
      | some e2 =>
        rw [runFn_loopDone_clRaise h a steps e2 hc (by simp [hexit]) (by simp [hexit]) hcl] at hx
        exact absurd hx (by simp)
    · cases hcl : h.clExc (errorOfExit (readLoop h a steps).exit) with
      | none =>
        rw [runFn_loopDone_clOk h a steps hc (by simp [hexit]) (by simp [hexit]) hcl]
        exact ⟨rfl, rfl⟩
      | some e2 =>
        rw [runFn_loopDone_clRaise h a steps e2 hc (by simp [hexit]) (by simp [hexit]) hcl] at hx
        exact absurd hx (by simp)
    · rw [runFn_escaped h a steps e hc hexit] at hx; exact absurd hx (by simp)
    · rw [runFn_exhausted h a steps hc hexit] at hx; exact absurd hx (by simp)

/-- `data_received` trace entries are never `connection_lost` entries. -/
lemma countConnLost_map_dataRecv (l : List (List Nat)) :
    countConnLost (l.map HEvent.dataRecv) = 0 := by
  induction l with
  | nil => rfl
  | cons c t ih => simp [countConnLost, isConnLost, List.filter_cons, ← ih]

/-- `connection_made` trace entries do not count as `connection_lost`. -/
lemma countConnLost_cm (b : Bool) (l : List HEvent) :
    countConnLost (.connMade b :: l) = countConnLost l := by
  simp [countConnLost, isConnLost, List.filter_cons]

/-- A run of `data_received` entries preserves the ordering check. -/
lemma orderedAux_map (l : List (List Nat)) (tail : List HEvent) :
    orderedAux true false (l.map HEvent.dataRecv ++ tail) = orderedAux true false tail := by
  induction l with
  | nil => rfl
  | cons c t ih => simpa [orderedAux] using ih

/-- A trace made only of `data_received` entries passes the ordering check
once `connection_made` has returned. -/
lemma orderedAux_map_only (l : List (List Nat)) :
    orderedAux true false (l.map HEvent.dataRecv) = true := by
  simpa using orderedAux_map l []

/-- C5: for every run, the handler's callbacks are strictly ordered —
`data_received` is never invoked after `connection_lost` and never before
`connection_made` has returned successfully. -/
theorem callbacks_ordered (h : Handler) (a : Bool) (steps : List Step) :
    orderedAux false false (runFn h a steps).events = true := by
  cases hc : h.cmExc with
  | some e => rw [(runFn_cmFail_events h a steps e hc).1]; rfl
  | none =>
    rcases hexit : (readLoop h a steps).exit with _ | e | e | e | _
    · rw [(runFn_loopDone_events h a steps hc (by simp [hexit]) (by simp [hexit])).1]
      simp [orderedAux, orderedAux_map]
    · rw [(runFn_loopDone_events h a steps hc (by simp [hexit]) (by simp [hexit])).1]
      simp [orderedAux, orderedAux_map]
    · rw [(runFn_loopDone_events h a steps hc (by simp [hexit]) (by simp [hexit])).1]
      simp [orderedAux, orderedAux_map]
    · rw [runFn_escaped h a steps e hc hexit]
      simp [orderedAux, orderedAux_map_only]
    · rw [runFn_exhausted h a steps hc hexit]
      simp [orderedAux, orderedAux_map_only]

/-- C8: an empty read continues the loop without invoking the handler —
`readLoop` on an empty-read iteration equals `readLoop` without it — and
consequently every `data_received` invocation in any run carries a non-empty
byte sequence. -/
theorem data_received_nonempty :
    (∀ (h : Handler) (a : Bool) (steps : List Step),
      (runFn h a steps).events.all nonEmptyData = true) ∧
    (∀ (h : Handler) (rest : List Step),
      readLoop h true (⟨false, true, .ok []⟩ :: rest) = readLoop h true rest) := by
  refine ⟨?_, readLoop_cons_empty⟩
  intro h a steps
  rw [List.all_eq_true]
  intro ev hev
  have hchunks := (readLoop_facts h steps a).2.2
  cases hc : h.cmExc with
  | some e =>
    rw [(runFn_cmFail_events h a steps e hc).1] at hev
    simp only [List.mem_cons, List.mem_singleton] at hev
    rcases hev with rfl | hev
    · rfl
    · simp at hev
      rw [hev]
      rfl
  | none =>
    have hmap : ∀ c ∈ (readLoop h a steps).chunks, nonEmptyData (HEvent.dataRecv c) = true := by
      intro c hcm
      have := hchunks c hcm
      simp [nonEmptyData, List.isEmpty_iff, this]
    rcases hexit : (readLoop h a steps).exit with _ | e | e | e | _
    · rw [(runFn_loopDone_events h a steps hc (by simp [hexit]) (by simp [hexit])).1] at hev
      simp only [List.mem_cons, List.mem_append, List.mem_map, List.mem_singleton] at hev
      rcases hev with rfl | ⟨c, hcm, rfl⟩ | rfl | h0
      · rfl
      · exact hmap c hcm
      · rfl
      · exact absurd h0 (by simp)
    · rw [(runFn_loopDone_events h a steps hc (by simp [hexit]) (by simp [hexit])).1] at hev
      simp only [List.mem_cons, List.mem_append, List.mem_map, List.mem_singleton] at hev
      rcases hev with rfl | ⟨c, hcm, rfl⟩ | rfl | h0
      · rfl
      · exact hmap c hcm
      · rfl
      · exact absurd h0 (by simp)
    · rw [(runFn_loopDone_events h a steps hc (by simp [hexit]) (by simp [hexit])).1] at hev
      simp only [List.mem_cons, List.mem_append, List.mem_map, List.mem_singleton] at hev
      rcases hev with rfl | ⟨c, hcm, rfl⟩ | rfl | h0
      · rfl
      · exact hmap c hcm
      · rfl
      · exact absurd h0 (by simp)
    · rw [runFn_escaped h a steps e hc hexit] at hev
      simp only [List.mem_cons, List.mem_map] at hev
      rcases hev with rfl | ⟨c, hcm, rfl⟩
      · rfl
      · exact hmap c hcm
    · rw [runFn_exhausted h a steps hc hexit] at hev
      simp only [List.mem_cons, List.mem_map] at hev
      rcases hev with rfl | ⟨c, hcm, rfl⟩
      · rfl
      · exact hmap c hcm

/-- C9: only `serial.SerialException` read failures are recorded as the
termination error; a `read` exception of any other class after a successful
`connection_made` escapes the run uncaught — `connection_lost` is never
called, `alive` stays true, and the handler reference is not released. -/
theorem nonserial_escape :
    (∀ (h : Handler) (a : Bool) (steps : List Step) (e : Exc),
      h.cmExc = none → (runFn h a steps).outcome = .escapedWith e →
        e.isSerial = false ∧ countConnLost (runFn h a steps).events = 0 ∧
        (runFn h a steps).aliveFinal = true ∧
        (runFn h a steps).protocolReleased = false) ∧
    (∀ (h : Handler) (a : Bool) (steps : List Step) (e : Exc),
      (runFn h a steps).loopExit = some (.brokeSerial e) → e.isSerial = true) := by
  constructor
  · intro h a steps e hc hout
    rcases hexit : (readLoop h a steps).exit with _ | e' | e' | e' | _
    · cases hcl : h.clExc (errorOfExit (readLoop h a steps).exit) with
      | none =>
        rw [runFn_loopDone_clOk h a steps hc (by simp [hexit]) (by simp [hexit]) hcl] at hout
        exact absurd hout (by simp)
      | some e2 =>
        rw [runFn_loopDone_clRaise h a steps e2 hc (by simp [hexit]) (by simp [hexit]) hcl] at hout
        exact absurd hout (by simp)
    · cases hcl : h.clExc (errorOfExit (readLoop h a steps).exit) with
      | none =>
        rw [runFn_loopDone_clOk h a steps hc (by simp [hexit]) (by simp [hexit]) hcl] at hout
        exact absurd hout (by simp)
      | some e2 =>
        rw [runFn_loopDone_clRaise h a steps e2 hc (by simp [hexit]) (by simp [hexit]) hcl] at hout
        exact absurd hout (by simp)
    · cases hcl : h.clExc (errorOfExit (readLoop h a steps).exit) with
      | none =>
        rw [runFn_loopDone_clOk h a steps hc (by simp [hexit]) (by simp [hexit]) hcl] at hout
        exact absurd hout (by simp)
      | some e2 =>
        rw [runFn_loopDone_clRaise h a steps e2 hc (by simp [hexit]) (by simp [hexit]) hcl] at hout
        exact absurd hout (by simp)
    · have hrun := runFn_escaped h a steps e' hc hexit
      rw [hrun] at hout ⊢
      simp only [RunOutcome.escapedWith.injEq] at hout
      subst hout
      refine ⟨((readLoop_facts h steps a).1 e' hexit).2, ?_,
        ((readLoop_facts h steps a).1 e' hexit).1, rfl⟩
      simpa [countConnLost_cm] using countConnLost_map_dataRecv (readLoop h a steps).chunks
    · rw [runFn_exhausted h a steps hc hexit] at hout
      exact absurd hout (by simp)
  · intro h a steps e hle
    cases hc : h.cmExc with
    | some e' =>
      rw [(runFn_cmFail_events h a steps e' hc).2.2.2.1] at hle
      exact absurd hle (by simp)
    | none =>
      rcases hexit : (readLoop h a steps).exit with _ | e' | e' | e' | _
      · rw [(runFn_loopDone_events h a steps hc (by simp [hexit]) (by simp [hexit])).2.2.2.1, hexit] at hle
        exact absurd hle (by simp)
      · rw [(runFn_loopDone_events h a steps hc (by simp [hexit]) (by simp [hexit])).2.2.2.1, hexit] at hle
        simp only [Option.some.injEq, LoopExit.brokeSerial.injEq] at hle
        subst hle
        exact (readLoop_facts h steps a).2.1 e' hexit
      · rw [(runFn_loopDone_events h a steps hc (by simp [hexit]) (by simp [hexit])).2.2.2.1, hexit] at hle
        exact absurd hle (by simp)
      · rw [runFn_escaped h a steps e' hc hexit] at hle
        exact absurd hle (by simp)
      · rw [runFn_exhausted h a steps hc hexit] at hle
        exact absurd hle (by simp)

/-- Witness for C9: a `read` raising a non-serial exception after a
successful `connection_made` escapes; no `connection_lost`, `alive` stays
true, handler kept. -/
theorem nonserial_escape_witness :
    (runFn ⟨none, fun _ => none, fun _ => none⟩ true [⟨false, true, .err ⟨false, 5⟩⟩]).outcome =
      .escapedWith ⟨false, 5⟩ ∧
    countConnLost (runFn ⟨none, fun _ => none, fun _ => none⟩ true
      [⟨false, true, .err ⟨false, 5⟩⟩]).events = 0 ∧
    (runFn ⟨none, fun _ => none, fun _ => none⟩ true [⟨false, true, .err ⟨false, 5⟩⟩]).aliveFinal = true ∧
    (runFn ⟨none, fun _ => none, fun _ => none⟩ true [⟨false, true, .err ⟨false, 5⟩⟩]).protocolReleased =
      false :=
  ⟨by decide,
    (nonserial_escape.1 ⟨none, fun _ => none, fun _ => none⟩ true [⟨false, true, .err ⟨false, 5⟩⟩]
      ⟨false, 5⟩ rfl (by decide)).2⟩

/-- C2 counterexample: `connect()` on a loop that was never started (and
never stopped) finds `alive` true from `__init__` and waits on the
`_connection_made` event, which nothing will ever set — it blocks forever
instead of raising the `AlreadyStoppedError` the claim states. -/
theorem connect_counterexample :
    ReaderThread.connect initState.alive false false = ConnectResult.blocksForever ∧
    ConnectResult.blocksForever ≠ ConnectResult.alreadyStoppedError :=
  ⟨by decide, by decide⟩

/-- C2 (amended): `connect()` raises `AlreadyStoppedError` exactly when
`alive` is already false at the call (loop stopped or fully terminated,
including termination before the call); when called with `alive` true it
blocks until the one-shot event fires, then returns the
`(transport, protocol)` pair if `alive` is still true at wake and raises
`ConnectionLostError` if the loop terminated during the wait — in
particular a `connect()` overlapping any completed run wakes (the run set
the event) and raises `ConnectionLostError`; on a never-started,
never-stopped loop the event never fires and `connect()` blocks forever. -/
theorem connect_characterization :
    (∀ fires wake, ReaderThread.connect false fires wake = .alreadyStoppedError) ∧
    ReaderThread.connect true true true = .ok ∧
    (∀ (h : Handler) (a : Bool) (steps : List Step),
      (runFn h a steps).outcome = .completed →
      ReaderThread.connect true (runFn h a steps).connMadeSet (runFn h a steps).aliveFinal =
        .connectionLostError) ∧
    ReaderThread.connect initState.alive false false = .blocksForever := by
  refine ⟨fun fires wake => rfl, rfl, ?_, rfl⟩
  intro h a steps hx
  obtain ⟨hdead, hset⟩ := runFn_completed_dead h a steps hx
  rw [hdead, hset]
  rfl

/-- Witness for C2: a run terminated by `stop()` wakes an overlapping
`connect()` into `ConnectionLostError`. -/
theorem connect_characterization_witness :
    ReaderThread.connect true
      (runFn ⟨none, fun _ => none, fun _ => none⟩ true [⟨true, true, .ok []⟩]).connMadeSet
      (runFn ⟨none, fun _ => none, fun _ => none⟩ true [⟨true, true, .ok []⟩]).aliveFinal =
      .connectionLostError :=
  connect_characterization.2.2.1 ⟨none, fun _ => none, fun _ => none⟩ true
    [⟨true, true, .ok []⟩] (by decide)

/-- C3 counterexample: after a failed `connection_made` the run has set
`alive` false, so a `connect()` call made after that failure takes the
`else` branch and raises `RuntimeError('already stopped')`
(`AlreadyStoppedError`), not `ConnectionLostError` as the claim states. -/
theorem startup_failure_counterexample :
    ReaderThread.connect
      (runFn ⟨some ⟨false, 7⟩, fun _ => none, fun _ => none⟩ true []).aliveFinal true false =
      ConnectResult.alreadyStoppedError ∧
    ConnectResult.alreadyStoppedError ≠ ConnectResult.connectionLostError :=
  ⟨by decide, by decide⟩

/-- C3 (amended): if `connection_made` raises, the run takes the
startup-failure path: `alive` is cleared and `connection_lost` is invoked
with that error before any read or data dispatch, the loop never runs, and
the handler reference is kept.  When that `connection_lost` call returns
normally (a suppressing override), the connection-established signal fires,
the run terminates, and no `connect()` blocks forever: one already waiting
wakes and raises `ConnectionLostError`, while one made after the failure
raises `AlreadyStoppedError`.  When `connection_lost` itself raises — as the
base `Protocol.connection_lost` does for a present error — the re-raise at
line 68 escapes before `self._connection_made.set()` at line 69, the signal
never fires, and an already-waiting `connect()` blocks forever. -/
theorem startup_failure_path (h : Handler) (a : Bool) (steps : List Step) (e : Exc)
    (hc : h.cmExc = some e) :
    ((runFn h a steps).events = [.connMade false, .connLost (some e)] ∧
      (runFn h a steps).aliveFinal = false ∧
      (runFn h a steps).loopExit = none ∧
      (runFn h a steps).protocolReleased = false) ∧
    (h.clExc (some e) = none →
      (runFn h a steps).outcome = .completed ∧
      (runFn h a steps).connMadeSet = true ∧
      ReaderThread.connect true (runFn h a steps).connMadeSet
        (runFn h a steps).aliveFinal = .connectionLostError ∧
      (∀ fires wake, ReaderThread.connect (runFn h a steps).aliveFinal fires wake =
        .alreadyStoppedError)) ∧
    (∀ e2, h.clExc (some e) = some e2 →
      (runFn h a steps).outcome = .connLostRaised e2 ∧
      (runFn h a steps).connMadeSet = false ∧
      (∀ wake, ReaderThread.connect true (runFn h a steps).connMadeSet wake =
        .blocksForever)) := by
  refine ⟨?_, ?_, ?_⟩
  · obtain ⟨h1, h2, h3, h4, _⟩ := runFn_cmFail_events h a steps e hc
    exact ⟨h1, h2, h4, h3⟩
  · intro hcl
    rw [runFn_cmFail_clOk h a steps e hc hcl]
    exact ⟨rfl, rfl, rfl, fun fires wake => rfl⟩
  · intro e2 hcl
    rw [runFn_cmFail_clRaise h a steps e e2 hc hcl]
    exact ⟨rfl, rfl, fun wake => rfl⟩

/-- Witness for C3 at a concrete raising `connection_made` whose
`connection_lost` returns. -/
theorem startup_failure_path_witness :
    (runFn ⟨some ⟨false, 7⟩, fun _ => none, fun _ => none⟩ true []).events =
      [.connMade false, .connLost (some ⟨false, 7⟩)] ∧
    (runFn ⟨some ⟨false, 7⟩, fun _ => none, fun _ => none⟩ true []).outcome = .completed :=
  ⟨(startup_failure_path ⟨some ⟨false, 7⟩, fun _ => none, fun _ => none⟩ true []
      ⟨false, 7⟩ rfl).1.1,
    ((startup_failure_path ⟨some ⟨false, 7⟩, fun _ => none, fun _ => none⟩ true []
      ⟨false, 7⟩ rfl).2.1 rfl).1⟩

/-- C4 counterexample: `close()` on a `ReaderThread` that was never started
calls `stop()`, whose `self.join(2)` raises `RuntimeError` (joining a
never-started thread), so `close()` is not error-free before `start()` —
the second component records the raised exception. -/
theorem close_counterexample :
    (ReaderThread.close initState).2 = true := by decide

/-- C4 (amended): `close()` runs `stop()` then closes the port under the
write lock; on a loop that has been started it raises no error, leaves
`alive` false and the stream closed, and a second `close()` raises no error
and changes nothing — but on a never-started loop `stop()`'s bounded join
raises `RuntimeError`, so `close()` is not safe before `start()`. -/
theorem close_idempotent_started (s : RState) (hs : s.started = true) :
    (ReaderThread.close s).2 = false ∧
    (ReaderThread.close s).1.alive = false ∧
    (ReaderThread.close s).1.sOpen = false ∧
    ReaderThread.close (ReaderThread.close s).1 = ((ReaderThread.close s).1, false) := by
  rcases s with ⟨al, st, so, ev⟩
  subst hs
  refine ⟨rfl, rfl, rfl, rfl⟩

/-- Witness for C4 on a started, open, running loop. -/
theorem close_idempotent_started_witness :
    (ReaderThread.close ⟨true, true, true, false⟩).2 = false ∧
    ReaderThread.close (ReaderThread.close ⟨true, true, true, false⟩).1 =
      ((ReaderThread.close ⟨true, true, true, false⟩).1, false) :=
  ⟨(close_idempotent_started ⟨true, true, true, false⟩ rfl).1,
    (close_idempotent_started ⟨true, true, true, false⟩ rfl).2.2.2⟩

/-- C7 counterexample: a run whose `connection_made` raised terminates by
the startup-failure `return`, which skips `self.protocol = None` — the
handler reference is retained, contradicting the claim that it is released
on the startup-failure path alike. -/
theorem handler_release_counterexample :
    (runFn ⟨some ⟨false, 3⟩, fun _ => none, fun _ => none⟩ true []).outcome =
      RunOutcome.completed ∧
    (runFn ⟨some ⟨false, 3⟩, fun _ => none, fun _ => none⟩ true []).protocolReleased =
      false :=
  ⟨by decide, by decide⟩

/-- C7 (amended): exactly one handler instance is created per run, lazily
via the factory when the run starts; the handler reference is released iff
the run returned through the steady-state epilogue with a `connection_lost`
call that returned normally.  On the startup-failure path the run returns
before `self.protocol = None`, and whenever `connection_lost` itself raises
— as the base `Protocol.connection_lost` does when a termination error was
recorded — the raise at line 91 skips `self.protocol = None` at line 92, so
in both cases the reference is retained. -/
theorem handler_lifecycle (h : Handler) (a : Bool) (steps : List Step) :
    (runFn h a steps).factoryCalls = 1 ∧
    ((runFn h a steps).protocolReleased = true ↔
      ((runFn h a steps).outcome = .completed ∧ h.cmExc = none)) ∧
    (∀ e2, (runFn h a steps).outcome = .connLostRaised e2 →
      (runFn h a steps).protocolReleased = false) := by
  cases hc : h.cmExc with
  | some e =>
    cases hcl : h.clExc (some e) with
    | none =>
      rw [runFn_cmFail_clOk h a steps e hc hcl]
      exact ⟨rfl, by simp [hc], fun e2 hcon => absurd hcon (by simp)⟩
    | some e2 =>
      rw [runFn_cmFail_clRaise h a steps e e2 hc hcl]
      exact ⟨rfl, by simp, fun e3 _ => rfl⟩
  | none =>
    rcases hexit : (readLoop h a steps).exit with _ | e | e | e | _
    · cases hcl : h.clExc (errorOfExit (readLoop h a steps).exit) with
      | none =>
        rw [runFn_loopDone_clOk h a steps hc (by simp [hexit]) (by simp [hexit]) hcl]
        exact ⟨rfl, by simp [hc], fun e2 hcon => absurd hcon (by simp)⟩
      | some e2 =>
        rw [runFn_loopDone_clRaise h a steps e2 hc (by simp [hexit]) (by simp [hexit]) hcl]
        exact ⟨rfl, by simp, fun e3 _ => rfl⟩
    · cases hcl : h.clExc (errorOfExit (readLoop h a steps).exit) with
      | none =>
        rw [runFn_loopDone_clOk h a steps hc (by simp [hexit]) (by simp [hexit]) hcl]
        exact ⟨rfl, by simp [hc], fun e2 hcon => absurd hcon (by simp)⟩
      | some e2 =>
        rw [runFn_loopDone_clRaise h a steps e2 hc (by simp [hexit]) (by simp [hexit]) hcl]
        exact ⟨rfl, by simp, fun e3 _ => rfl⟩
    · cases hcl : h.clExc (errorOfExit (readLoop h a steps).exit) with
      | none =>
        rw [runFn_loopDone_clOk h a steps hc (by simp [hexit]) (by simp [hexit]) hcl]
        exact ⟨rfl, by simp [hc], fun e2 hcon => absurd hcon (by simp)⟩
      | some e2 =>
        rw [runFn_loopDone_clRaise h a steps e2 hc (by simp [hexit]) (by simp [hexit]) hcl]
        exact ⟨rfl, by simp, fun e3 _ => rfl⟩
    · rw [runFn_escaped h a steps e hc hexit]
      exact ⟨rfl, by simp, fun e2 hcon => absurd hcon (by simp)⟩
    · rw [runFn_exhausted h a steps hc hexit]
      exact ⟨rfl, by simp, fun e2 hcon => absurd hcon (by simp)⟩

/-- Witness for C7: with the base `Protocol.connection_lost` raise behaviour
and a recorded `SerialException`, the epilogue's `connection_lost` re-raises
and the handler reference is retained. -/
theorem handler_lifecycle_witness :
    (runFn ⟨none, fun _ => none, Protocol.connection_lost⟩ true
      [⟨false, true, .err ⟨true, 4⟩⟩]).outcome = .connLostRaised ⟨true, 4⟩ ∧
    (runFn ⟨none, fun _ => none, Protocol.connection_lost⟩ true
      [⟨false, true, .err ⟨true, 4⟩⟩]).protocolReleased = false :=
  ⟨by decide,
    (handler_lifecycle ⟨none, fun _ => none, Protocol.connection_lost⟩ true
      [⟨false, true, .err ⟨true, 4⟩⟩]).2.2 ⟨true, 4⟩ (by decide)⟩

/-- No public operation ever turns `alive` from false back to true. -/
lemma applyOp_alive_mono (s : RState) (op : Op)
    (hx : (applyOp s op).alive = true) : s.alive = true := by
  cases op with
  | startOp => exact hx
  | stopOp => exact absurd hx (by simp [applyOp, ReaderThread.stop])
  | closeOp =>
    exact absurd hx (by simp [applyOp, ReaderThread.close, ReaderThread.stop, apply_ite])
  | connectOp => exact hx
  | writeOp => exact hx
  | runOp h steps => exact runFn_alive_mono h s.alive steps hx

/-- A trace always starts with its initial state. -/
lemma execTrace_cons (s : RState) (ops : List Op) :
    ∃ t, execTrace s ops = s :: t := by
  cases ops with
  | nil => exact ⟨[], rfl⟩
  | cons op ops => exact ⟨execTrace (applyOp s op) ops, rfl⟩

/-- The last `alive` flag of a trace is the `alive` flag of the folded final
state. -/
lemma aliveList_getLast (s : RState) (ops : List Op) :
    (aliveList (execTrace s ops)).getLast? = some ((ops.foldl applyOp s).alive) := by
  induction ops generalizing s with
  | nil => rfl
  | cons op ops ih =>
    obtain ⟨t, ht⟩ := execTrace_cons (applyOp s op) ops
    show (aliveList (s :: execTrace (applyOp s op) ops)).getLast? = _
    rw [ht]
    show (s.alive :: (applyOp s op).alive :: aliveList t).getLast? = _
    rw [List.getLast?_cons_cons]
    have harr : (applyOp s op).alive :: aliveList t =
        aliveList (execTrace (applyOp s op) ops) := by
      rw [ht]; rfl
    rw [harr, ih]
    rfl

/-- The first `alive` flag of a trace is the initial one. -/
lemma aliveList_head (s : RState) (ops : List Op) :
    (aliveList (execTrace s ops)).head? = some s.alive := by
  obtain ⟨t, ht⟩ := execTrace_cons s ops
  rw [ht]; rfl

/-- Along any operation sequence the `alive` flag never goes false → true. -/
lemma noRevive_execTrace (s : RState) (ops : List Op) :
    noRevive (aliveList (execTrace s ops)) = true := by
  induction ops generalizing s with
  | nil => rfl
  | cons op ops ih =>
    obtain ⟨t, ht⟩ := execTrace_cons (applyOp s op) ops
    show noRevive (aliveList (s :: execTrace (applyOp s op) ops)) = true
    rw [ht]
    show ((s.alive || !(applyOp s op).alive) &&
      noRevive ((applyOp s op).alive :: aliveList t)) = true
    have h2 : noRevive ((applyOp s op).alive :: aliveList t) = true := by
      have h3 := ih (applyOp s op)
      rw [ht] at h3
      exact h3
    rw [h2, Bool.and_true]
    cases hy : (applyOp s op).alive
    · simp
    · simp [applyOp_alive_mono s op hy]

/-- A monotone boolean list that starts false stays false: it ends false and
has no true → false transition. -/
lemma noRevive_head_false (t : List Bool) (hl : noRevive (false :: t) = true) :
    (false :: t).getLast? = some false ∧ flips (false :: t) = 0 := by
  induction t with
  | nil => exact ⟨rfl, rfl⟩
  | cons b t2 ih =>
    simp only [noRevive, Bool.false_or, Bool.and_eq_true] at hl
    have hb : b = false := by
      have := hl.1
      simpa using this
    subst hb
    obtain ⟨hlast, hfl⟩ := ih hl.2
    constructor
    · rw [List.getLast?_cons_cons]
      exact hlast
    · simpa [flips] using hfl

/-- A monotone boolean list flips at most once, and exactly once when it
starts true and ends false. -/
lemma flips_bounds (l : List Bool) (hl : noRevive l = true) :
    flips l ≤ 1 ∧ ((l.head? = some true ∧ l.getLast? = some false) → flips l = 1) := by
  induction l with
  | nil => exact ⟨Nat.zero_le 1, by simp⟩
  | cons a t ih =>
    cases t with
    | nil =>
      refine ⟨Nat.zero_le 1, ?_⟩
      rintro ⟨h1, h2⟩
      simp at h1 h2
      rw [h1] at h2
      exact absurd h2 (by simp)
    | cons b t2 =>
      simp only [noRevive, Bool.and_eq_true] at hl
      obtain ⟨hab, hrest⟩ := hl
      obtain ⟨ihle, iheq⟩ := ih hrest
      cases ha : a
      · subst ha
        have hb : b = false := by
          simpa using hab
        subst hb
        constructor
        · simpa [flips] using ihle
        · rintro ⟨h1, _⟩
          simp at h1
      · subst ha
        cases hb : b
        · subst hb
          obtain ⟨hlast0, hfl0⟩ := noRevive_head_false t2 hrest
          constructor
          · simp [flips, hfl0]
          · intro _
            simp [flips, hfl0]
        · subst hb
          constructor
          · simpa [flips] using ihle
          · rintro ⟨h1, h2⟩
            rw [List.getLast?_cons_cons] at h2
            have heq1 := iheq ⟨by simp, h2⟩
            simpa [flips] using heq1

/-- C6: across every sequence of operations on a `ReaderThread` starting
from construction, the `alive` flag never transitions false → true, it
transitions true → false at most once, and whenever the final state is dead
it transitioned exactly once. -/
theorem alive_monotone (ops : List Op) :
    noRevive (aliveList (execTrace initState ops)) = true ∧
    flips (aliveList (execTrace initState ops)) ≤ 1 ∧
    ((ops.foldl applyOp initState).alive = false →
      flips (aliveList (execTrace initState ops)) = 1) := by
  have hnr := noRevive_execTrace initState ops
  obtain ⟨hle, heq⟩ := flips_bounds _ hnr
  refine ⟨hnr, hle, ?_⟩
  intro hdead
  refine heq ⟨?_, ?_⟩
  · rw [aliveList_head]; rfl
  · rw [aliveList_getLast, hdead]

/-- Witness for C6: a single `stop()` flips `alive` exactly once. -/
theorem alive_monotone_witness :
    ([Op.stopOp].foldl applyOp initState).alive = false ∧
    flips (aliveList (execTrace initState [Op.stopOp])) = 1 :=
  ⟨by decide, (alive_monotone [Op.stopOp]).2.2 (by decide)⟩

/-- The interleaving invariant holds initially. -/
lemma WCInv_init (data : List Nat) : WCInv data wcInit := by
  refine ⟨?_, ?_, ?_, ?_, ?_, ?_, ?_, ?_⟩ <;> simp [WCInv, wcInit]

/-- One writer step preserves the interleaving invariant. -/
lemma WCInv_wStep (data : List Nat) (s : WCState) (hI : WCInv data s) :
    WCInv data (wStep data s) := by
  obtain ⟨h1, h2, h3, h4, h5, h6, h7, h8⟩ := hI
  unfold wStep
  by_cases hw0 : s.wpc = 0
  · rw [if_pos hw0]
    by_cases hlk : (!s.lockW && !s.lockC) = true
    · rw [if_pos hlk]
      simp only [Bool.and_eq_true, Bool.not_eq_true'] at hlk
      refine ⟨?_, by simp, h3, by simp, h5, h6, ?_, ?_⟩
      · intro hcon
        exact absurd hcon.2 (by simp [hlk.2])
      · intro _
        exact h7 (by omega)
      · intro hcon
        simp at hcon
    · rw [if_neg hlk]
      exact ⟨h1, h2, h3, h4, h5, h6, h7, h8⟩
  · rw [if_neg hw0]
    by_cases hw1 : s.wpc = 1
    · rw [if_pos hw1]
      have hlw : s.lockW = true := h2.mpr hw1
      have hnc : ¬(s.cpc = 1 ∨ s.cpc = 2) := fun hx => h1 ⟨hlw, h3.mpr hx⟩
      obtain ⟨hbuf, herr, _⟩ := h7 (by omega)
      by_cases hop : s.sOpen = true
      · rw [if_pos hop]
        have hcpc0 : s.cpc = 0 := by
          have hle2 : s.cpc ≤ 2 := h6.mp hop
          omega
        refine ⟨by simp, by simp, h3, by simp, h5, h6, ?_, ?_⟩
        · intro hcon
          simp at hcon
        · intro _
          exact Or.inl ⟨herr, by simp [hbuf], by rw [hcpc0]⟩
      · rw [if_neg hop]
        have hcpc3 : s.cpc = 3 := by
          have hgt : ¬(s.cpc ≤ 2) := fun hx => hop (h6.mpr hx)
          omega
        refine ⟨by simp, by simp, h3, by simp, h5, h6, ?_, ?_⟩
        · intro hcon
          simp at hcon
        · intro _
          exact Or.inr ⟨rfl, hbuf, by rw [hcpc3]⟩
    · rw [if_neg hw1]
      exact ⟨h1, h2, h3, h4, h5, h6, h7, h8⟩

/-- One closer step preserves the interleaving invariant. -/
lemma WCInv_cStep (data : List Nat) (s : WCState) (hI : WCInv data s) :
    WCInv data (cStep s) := by
  obtain ⟨h1, h2, h3, h4, h5, h6, h7, h8⟩ := hI
  unfold cStep
  by_cases hc0 : s.cpc = 0
  · rw [if_pos hc0]
    by_cases hlk : (!s.lockW && !s.lockC) = true
    · rw [if_pos hlk]
      simp only [Bool.and_eq_true, Bool.not_eq_true'] at hlk
      have hso : s.sOpen = true := h6.mpr (by omega)
      refine ⟨?_, h2, by simp, h4, by simp, by simp [hso], h7, h8⟩
      intro hcon
      exact absurd hcon.1 (by simp [hlk.1])
    · rw [if_neg hlk]
      exact ⟨h1, h2, h3, h4, h5, h6, h7, h8⟩
  · rw [if_neg hc0]
    by_cases hc1 : s.cpc = 1
    · rw [if_pos hc1]
      have hlc : s.lockC = true := h3.mpr (Or.inl hc1)
      have hso : s.sOpen = true := h6.mpr (by omega)
      refine ⟨h1, h2, by simp [hlc], h4, by simp, by simp [hso], h7, h8⟩
    · rw [if_neg hc1]
      by_cases hc2 : s.cpc = 2
      · rw [if_pos hc2]
        refine ⟨by simp, h2, by simp, h4, by simp, by simp, h7, h8⟩
      · rw [if_neg hc2]
        exact ⟨h1, h2, h3, h4, h5, h6, h7, h8⟩

/-- The interleaving invariant holds after any schedule. -/
lemma WCInv_wcRun (data : List Nat) (s : WCState) (sched : List Bool)
    (hI : WCInv data s) : WCInv data (wcRun data s sched) := by
  induction sched generalizing s with
  | nil => exact hI
  | cons t ts ih =>
    show WCInv data (wcRun data (if t then wStep data s else cStep s) ts)
    cases t
    · exact ih _ (WCInv_cStep data s hI)
    · exact ih _ (WCInv_wStep data s hI)

/-- C10: `write(data)` and `close()` are mutually exclusive via the loop's
lock — in every interleaving in which the write has run, either it completed
in full (the whole `data` written) while the port was open and before the
close had acquired the lock (`wAt = some 0`), or it failed cleanly (nothing
written) after the close had fully finished (`wAt = some 3`) — never a torn
or partial write racing the close. -/
theorem write_close_exclusion (data : List Nat) (sched : List Bool)
    (hdone : (wcExec data sched).wpc = 2) :
    ((wcExec data sched).wErr = false ∧ (wcExec data sched).buf = data ∧
      (wcExec data sched).wAt = some 0) ∨
    ((wcExec data sched).wErr = true ∧ (wcExec data sched).buf = [] ∧
      (wcExec data sched).wAt = some 3) := by
  have hI := WCInv_wcRun data wcInit sched (WCInv_init data)
  exact hI.2.2.2.2.2.2.2 hdone

/-- Witness for C10: the writer scheduled first completes in full before the
close proceeds. -/
theorem write_close_exclusion_witness :
    (wcExec [1, 2] [true, true]).wpc = 2 ∧
    (((wcExec [1, 2] [true, true]).wErr = false ∧
      (wcExec [1, 2] [true, true]).buf = [1, 2] ∧
      (wcExec [1, 2] [true, true]).wAt = some 0) ∨
    ((wcExec [1, 2] [true, true]).wErr = true ∧
      (wcExec [1, 2] [true, true]).buf = [] ∧
      (wcExec [1, 2] [true, true]).wAt = some 3)) :=
  ⟨by decide, write_close_exclusion [1, 2] [true, true] (by decide)⟩

end PySerial
